import Mathlib

/-!
Verification of `scripts/crawl.py` from the `china-citizen-id` repository.

The script fetches yearly administrative-division code pages (with an on-disk
cache), scrapes `<tr>`/`<td>` tables out of the HTML, keeps rows whose first
non-empty cell starts with six digits, and writes the accumulated
year -> code -> name dataset to a JSON file once at the end.

Shallow embedding notes:
* A table cell is its extracted text (`td.text` in the source); rows are lists
  of cells. HTML parsing itself (BeautifulSoup) is modelled as an oracle
  `parse : String -> List Row` carried in the environment.
* Python dicts are modelled as association lists with Python insertion
  semantics: inserting an existing key updates it in place, a new key is
  appended at the end.
* `re.match(r"\d{6}", s)` succeeds iff the first six characters of `s` exist
  and are decimal digits (the pages only use ASCII digits, so `\d` is
  modelled as ASCII `0`-`9`).
* `str.strip()` is modelled as stripping the ASCII whitespace characters
  Python strips (space, tab, newline, carriage return, vertical tab, form
  feed); the pages do not use the rarer Unicode space characters.
* Bytes are `List Nat`; `bytes.decode(errors="ignore")` is a total UTF-8
  decoder that skips undecodable bytes.
* Effects (sleeping, HTTP GET, cache writes, the final JSON write) are
  recorded as an explicit event trace.
-/

namespace Crawl


/-- A table cell, identified with its text content (`td.text`). -/
structure Cell where
  text : String
  deriving DecidableEq

/-- A table row: the list of its cells (`tr.find_all("td")`). -/
abbrev Row := List Cell

/-- A Python `dict[str, str]`, as an association list in insertion order. -/
abbrev Dict := List (String × String)

/-- The dataset `dict[int, dict[str, str]]` built by `main`. -/
abbrev Dataset := List (Nat × Dict)

/-- Python dict assignment `d[k] = v`: update the existing entry in place,
or append a new entry at the end. -/
def dictInsert {α β : Type} [DecidableEq α] (d : List (α × β)) (k : α) (v : β) :
    List (α × β) :=
  match d with
  | [] => [(k, v)]
  | (k', v') :: rest => if k' = k then (k, v) :: rest else (k', v') :: dictInsert rest k v

/-- Python dict lookup `d[k]` (as an option). -/
def dictLookup {α β : Type} [DecidableEq α] (d : List (α × β)) (k : α) : Option β :=
  match d with
  | [] => none
  | (k', v') :: rest => if k' = k then some v' else dictLookup rest k

/-- The ASCII whitespace characters stripped by Python `str.strip()`. -/
def pyIsSpace (c : Char) : Bool :=
  c = ' ' || c = '\t' || c = '\n' || c = '\r' || c = '\x0b' || c = '\x0c'

/-- `str.strip()` on the character list: drop whitespace from both ends. -/
def pyStripList (l : List Char) : List Char :=
  ((l.dropWhile pyIsSpace).reverse.dropWhile pyIsSpace).reverse

/-- Python `str.strip()`. -/
def pyStrip (s : String) : String :=
  String.mk (pyStripList s.data)

/-- Does the character list start with six decimal digits? -/
def sixDigitPrefix (l : List Char) : Bool :=
  decide (6 ≤ l.length) && (l.take 6).all Char.isDigit

/-- `re.match(r"\d{6}", s) is not None`: the string starts with six digits.
No trimming happens before the match (`re.match` anchors at position 0). -/
def reMatchSixDigits (s : String) : Bool :=
  sixDigitPrefix s.data

/-- Line 85: keep the cells of a row whose text is not the empty string
(`[td for td in tr.find_all("td") if td.text != ""]`). -/
def filterCells (tr : Row) : Row :=
  tr.filter (fun td => td.text ≠ "")

/-- Lines 85-86: per-row empty-cell filtering followed by dropping rows with
no remaining cells (`[tr for tr in tr_list if len(tr) > 0]`). -/
def filteredRows (trList : List Row) : List Row :=
  (trList.map filterCells).filter (fun tr => 0 < tr.length)

/-- Lines 87-92: the per-year row loop. `tr[0]` always exists (rows are
non-empty after filtering); `tr[1]` raises `IndexError` when the row has a
single cell and the six-digit match succeeded. -/
def extractGo (d : Dict) : List Row → Except String Dict
  | [] => Except.ok d
  | tr :: rest =>
    match tr with
    | [] => Except.error "IndexError: list index out of range"
    | c0 :: cs =>
      if reMatchSixDigits c0.text then
        match cs with
        | [] => Except.error "IndexError: list index out of range"
        | c1 :: _ => extractGo (dictInsert d (pyStrip c0.text) (pyStrip c1.text)) rest
      else extractGo d rest

/-- The extractor applied to the parsed rows of one page: filtering
(lines 85-86) followed by the row loop (lines 87-92) starting from the empty
dict installed by `dataset[year] = {}`. -/
def extractTable (trList : List Row) : Except String Dict :=
  extractGo [] (filteredRows trList)

/-- The synthetic fixture of C3: one header row and one data row. -/
def fixtureC3 : List Row :=
  [[⟨"代码"⟩, ⟨"名称"⟩], [⟨"110101"⟩, ⟨"东城区"⟩]]

/-- The row of C4: an empty cell interleaved before the code cell. -/
def fixtureC4 : List Row :=
  [[⟨""⟩, ⟨"120101"⟩, ⟨"某区"⟩]]

/-- A row passes the loop body without raising: either the six-digit match
fails (the row is skipped) or the row has a second cell to read. Rows that
are empty would already fail on `tr[0]`. -/
def rowOk : Row → Bool
  | [] => false
  | c0 :: cs => !reMatchSixDigits c0.text || !cs.isEmpty

/-- Does the row pass the six-digit match? (`tr[0]` is total here because the
extractor only sees non-empty rows.) -/
def survives (tr : Row) : Bool :=
  reMatchSixDigits ((tr.headD ⟨""⟩).text)

/-- The code a surviving row records: `tr[0].text.strip()`. -/
def rowCode (tr : Row) : String :=
  pyStrip ((tr.headD ⟨""⟩).text)

/-- The name a surviving row records: `tr[1].text.strip()`. -/
def rowName (tr : Row) : String :=
  pyStrip ((tr.getD 1 ⟨""⟩).text)

/-- The last row (in document order) that survives the six-digit match and
records the code `c`. -/
def lastRowFor (rows : List Row) (c : String) : Option Row :=
  rows.reverse.find? (fun tr => survives tr && (rowCode tr == c))

/-- The fixture of C5: two rows recording the same code with different
names. -/
def fixtureC5 : List Row :=
  [[⟨"110101"⟩, ⟨"旧名"⟩], [⟨"110101"⟩, ⟨"新名"⟩]]

/-- Is `b` a UTF-8 continuation byte (`0b10xxxxxx`)? -/
def isCont (b : Nat) : Bool :=
  decide (0x80 ≤ b) && decide (b < 0xC0)

/-- Decode one UTF-8 scalar from the front of the byte list, returning the
character and the number of bytes consumed; `none` on an invalid or
truncated sequence. -/
def decodeOne : List Nat → Option (Char × Nat)
  | [] => none
  | b :: rest =>
    if b < 0x80 then some (Char.ofNat b, 1)
    else if 0xC2 ≤ b ∧ b ≤ 0xDF then
      match rest with
      | b1 :: _ =>
        if isCont b1 then some (Char.ofNat ((b - 0xC0) * 64 + (b1 - 0x80)), 2)
        else none
      | [] => none
    else if 0xE0 ≤ b ∧ b ≤ 0xEF then
      match rest with
      | b1 :: b2 :: _ =>
        if isCont b1 && isCont b2 then
          let v := (b - 0xE0) * 4096 + (b1 - 0x80) * 64 + (b2 - 0x80)
          if 0x800 ≤ v ∧ ¬(0xD800 ≤ v ∧ v ≤ 0xDFFF) then some (Char.ofNat v, 3)
          else none
        else none
      | _ => none
    else if 0xF0 ≤ b ∧ b ≤ 0xF4 then
      match rest with
      | b1 :: b2 :: b3 :: _ =>
        if isCont b1 && isCont b2 && isCont b3 then
          let v := (b - 0xF0) * 262144 + (b1 - 0x80) * 4096 +
            (b2 - 0x80) * 64 + (b3 - 0x80)
          if 0x10000 ≤ v ∧ v ≤ 0x10FFFF then some (Char.ofNat v, 4)
          else none
        else none
      | _ => none
    else none

/-- `bytes.decode(errors="ignore")`, with fuel: decode scalars one at a time
and skip a byte whenever decoding fails. The error handler is modelled at
byte granularity (each undecodable byte is dropped); it is total for every
byte list. The fuel is the list length, enough since every step consumes at
least one byte. -/
def decodeIgnoreGo : Nat → List Nat → List Char
  | 0, _ => []
  | _, [] => []
  | fuel + 1, b :: rest =>
    match decodeOne (b :: rest) with
    | some (c, k) => c :: decodeIgnoreGo fuel (rest.drop (k - 1))
    | none => decodeIgnoreGo fuel rest

/-- `bytes.decode(errors="ignore")` (line 73): always returns a string. -/
def decodeIgnore (bs : List Nat) : String :=
  String.mk (decodeIgnoreGo bs.length bs)

/-- The observable effects of a run: the fixed pre-download sleep, an HTTP
GET, a cache-file write, and the final JSON serialization. (The progress
prints on stdout are not modelled.) -/
inductive Event where
  | sleep (seconds : Nat)
  | httpGet (url : String)
  | writeCache (cname : String) (bytes : List Nat)
  | writeJson (data : Dataset)
  deriving DecidableEq

/-- Is the event an HTTP GET? -/
def isHttpGet : Event → Bool
  | Event.httpGet _ => true
  | _ => false

/-- Is the event the JSON serialization of the dataset? -/
def isWriteJson : Event → Bool
  | Event.writeJson _ => true
  | _ => false

/-- The world the script runs against: the on-disk URL cache (keyed by the
cache identifier, holding raw bytes), the HTTP server (status and body per
URL), and the BeautifulSoup oracle turning HTML text into table rows. -/
structure Env where
  cache : String → Option (List Nat)
  http : String → Nat × List Nat
  parse : String → List Row

/-- Writing a cache file: subsequent reads of that identifier see the bytes,
other entries are untouched. -/
def cacheWrite (env : Env) (cname : String) (bs : List Nat) : Env :=
  ⟨fun n => if n = cname then some bs else env.cache n, env.http, env.parse⟩

/-- `response.raise_for_status()` raises for 4xx and 5xx status codes. -/
def isErrorStatus (status : Nat) : Bool :=
  decide (400 ≤ status) && decide (status < 600)

/-- Lines 63-73, `get_text`: return the cached page decoded if the cache
entry exists; otherwise sleep one second, GET the URL, fail on an error
status, persist the raw bytes, and return them decoded. -/
def get_text (env : Env) (cname url : String) :
    List Event × Except String (String × Env) :=
  match env.cache cname with
  | some bs => ([], Except.ok (decodeIgnore bs, env))
  | none =>
    let status := (env.http url).1
    let content := (env.http url).2
    if isErrorStatus status then
      ([Event.sleep 1, Event.httpGet url], Except.error "HTTPError")
    else
      ([Event.sleep 1, Event.httpGet url, Event.writeCache cname content],
        Except.ok (decodeIgnore content, cacheWrite env cname content))

/-- Lines 12-57: the hardcoded year-to-URL table, in declaration order. -/
def URL_INDEX : List (Nat × String) :=
  [(2023, "https://www.mca.gov.cn/mzsj/xzqh/2023/202301xzqh.html"),
   (2022, "https://www.mca.gov.cn/mzsj/xzqh/2022/202201xzqh.html"),
   (2021, "https://www.mca.gov.cn/mzsj/xzqh/2021/20211201.html"),
   (2020, "https://www.mca.gov.cn/mzsj/xzqh/2020/20201201.html"),
   (2019, "https://www.mca.gov.cn/mzsj/xzqh/1980/2019/202002281436.html"),
   (2018, "https://www.mca.gov.cn/mzsj/xzqh/1980/201903/201903011447.html"),
   (2017, "https://www.mca.gov.cn/mzsj/xzqh/1980/201803/201803131454.html"),
   (2016, "https://www.mca.gov.cn/mzsj/xzqh/1980/201705/201705311652.html"),
   (2015, "https://www.mca.gov.cn/mzsj/tjbz/a/2015/201706011127.html"),
   (2014, "https://www.mca.gov.cn/images2/cws/201502/20150225163817214.html"),
   (2013, "https://www.mca.gov.cn/images2/cws/201404/20140404125552372.htm"),
   (2012, "https://www.mca.gov.cn/mzsj/tjbz/a/201713/201707271556.html"),
   (2011, "https://www.mca.gov.cn/mzsj/tjbz/a/201713/201707271552.html"),
   (2010, "https://www.mca.gov.cn/mzsj/tjbz/a/201713/201708220946.html"),
   (2009, "https://www.mca.gov.cn/mzsj/tjbz/a/201713/201708220943.html"),
   (2008, "https://www.mca.gov.cn/mzsj/tjbz/a/201713/201708220941.html"),
   (2007, "https://www.mca.gov.cn/mzsj/tjbz/a/201713/201708220939.html"),
   (2006, "https://www.mca.gov.cn/mzsj/tjbz/a/201713/201708220936.html"),
   (2005, "https://www.mca.gov.cn/mzsj/tjbz/a/201713/201708220935.html"),
   (2004, "https://www.mca.gov.cn/mzsj/tjbz/a/201713/201708220930.html"),
   (2003, "https://www.mca.gov.cn/mzsj/tjbz/a/201713/201708220928.html"),
   (2002, "https://www.mca.gov.cn/mzsj/tjbz/a/201713/201708220927.html"),
   (2001, "https://www.mca.gov.cn/mzsj/tjbz/a/201713/201708220925.html"),
   (2000, "https://www.mca.gov.cn/mzsj/tjbz/a/201713/201708220923.html"),
   (1999, "https://www.mca.gov.cn/mzsj/tjbz/a/201713/201708220921.html"),
   (1998, "https://www.mca.gov.cn/mzsj/tjbz/a/201713/201708220918.html"),
   (1997, "https://www.mca.gov.cn/mzsj/tjbz/a/201713/201708220916.html"),
   (1996, "https://www.mca.gov.cn/mzsj/tjbz/a/201713/201708220914.html"),
   (1995, "https://www.mca.gov.cn/mzsj/tjbz/a/201713/201708220913.html"),
   (1994, "https://www.mca.gov.cn/mzsj/tjbz/a/201713/201708220911.html"),
   (1993, "https://www.mca.gov.cn/mzsj/tjbz/a/201713/201708041023.html"),
   (1992, "https://www.mca.gov.cn/mzsj/tjbz/a/201713/201708220910.html"),
   (1991, "https://www.mca.gov.cn/mzsj/tjbz/a/201713/201708041020.html"),
   (1990, "https://www.mca.gov.cn/mzsj/tjbz/a/201713/201708041018.html"),
   (1989, "https://www.mca.gov.cn/mzsj/tjbz/a/201713/201708041017.html"),
   (1988, "https://www.mca.gov.cn/mzsj/tjbz/a/201713/201708220903.html"),
   (1987, "https://www.mca.gov.cn/mzsj/xzqh/1980/1980/201911180950.html"),
   (1986, "https://www.mca.gov.cn/mzsj/tjbz/a/201713/201708220859.html"),
   (1985, "https://www.mca.gov.cn/mzsj/tjbz/a/201713/201708220858.html"),
   (1984, "https://www.mca.gov.cn/mzsj/tjbz/a/201713/201708220856.html"),
   (1983, "https://www.mca.gov.cn/mzsj/tjbz/a/201713/201708160821.html"),
   (1982, "https://www.mca.gov.cn/mzsj/xzqh/1980/1980/201911180942.html"),
   (1981, "https://www.mca.gov.cn/mzsj/tjbz/a/201713/201708041004.html"),
   (1980, "https://www.mca.gov.cn/mzsj/tjbz/a/201713/201708040959.html")]

/-- One iteration of the year loop (lines 78-92): install the empty
sub-mapping, fetch the page, parse it, and store the extracted dict under
the year. Any failure aborts the iteration with the error. -/
def processYear (env : Env) (dataset : Dataset) (year : Nat) (url : String) :
    List Event × Except String (Dataset × Env) :=
  let ds1 := dictInsert dataset year []
  match get_text env (toString year) url with
  | (evs, Except.error e) => (evs, Except.error e)
  | (evs, Except.ok (html, env2)) =>
    match extractTable (env2.parse html) with
    | Except.error e => (evs, Except.error e)
    | Except.ok d => (evs, Except.ok (dictInsert ds1 year d, env2))

/-- The year loop over a list of (year, url) pairs, threading the dataset
and the environment and accumulating the event trace. The first failure
aborts the whole run. -/
def mainGo (env : Env) (dataset : Dataset) :
    List (Nat × String) → List Event × Except String (Dataset × Env)
  | [] => ([], Except.ok (dataset, env))
  | (year, url) :: rest =>
    match processYear env dataset year url with
    | (evs, Except.error e) => (evs, Except.error e)
    | (evs, Except.ok (ds2, env2)) =>
      let r2 := mainGo env2 ds2 rest
      (evs ++ r2.1, r2.2)

/-- Lines 76-95, `main`: run the year loop over `URL_INDEX` starting from
the empty dataset; only when every year succeeded, serialize the dataset to
the JSON file (the single `json.dump` at line 95). -/
def main (env : Env) : List Event × Except String Unit :=
  match mainGo env [] URL_INDEX with
  | (evs, Except.error e) => (evs, Except.error e)
  | (evs, Except.ok (ds, _)) => (evs ++ [Event.writeJson ds], Except.ok ())

/-- The text a fetch of `(cname, url)` would produce against `env`,
independent of the environment threading: the decoded cache entry on a hit,
otherwise the decoded response body unless the status is an error. -/
def fetchedText (env : Env) (cname url : String) : Except String String :=
  match env.cache cname with
  | some bs => Except.ok (decodeIgnore bs)
  | none =>
    if isErrorStatus (env.http url).1 then Except.error "HTTPError"
    else Except.ok (decodeIgnore (env.http url).2)

/-- An environment with every cache entry present (holding empty bytes). -/
def envAllCached : Env :=
  ⟨fun _ => some [], fun _ => (200, []), fun _ => []⟩

/-- The dataset the run produces against `envAllCached`: every configured
year mapped to the empty sub-mapping. -/
def dsAllCached : Dataset :=
  URL_INDEX.map (fun yu => (yu.1, []))

/-- An environment with a populated cache whose entry is not valid UTF-8. -/
def envBadBytes : Env :=
  ⟨fun _ => some [255, 254, 65], fun _ => (200, []), fun _ => []⟩

/-- An environment with an empty cache and a healthy HTTP server. -/
def envMiss : Env :=
  ⟨fun _ => none, fun _ => (200, [66]), fun _ => []⟩

/-- Every key of the dict matches the six-digit pattern. -/
def goodDict (d : Dict) : Prop :=
  ∀ p ∈ d, reMatchSixDigits p.1 = true

/-- C3: on the minimal fixture (header row `代码`/`名称`, data row
`110101`/`东城区`) the extractor returns exactly the one-entry mapping
`{"110101": "东城区"}`: the header row fails the six-digit match and the
data row is recorded. -/
theorem c3_minimal_fixture :
    extractTable fixtureC3 = Except.ok [("110101", "东城区")] := rfl

/-- C4: for the row `["", "120101", "某区"]` the empty first cell is removed
before the six-digit check, the check is applied to `"120101"`, the row
survives, and code `"120101"` is mapped to name `"某区"`. -/
theorem c4_empty_cell_interleaved :
    filterCells [⟨""⟩, ⟨"120101"⟩, ⟨"某区"⟩] = [⟨"120101"⟩, ⟨"某区"⟩] ∧
    reMatchSixDigits "120101" = true ∧
    extractTable fixtureC4 = Except.ok [("120101", "某区")] := by
  refine ⟨by decide, by decide, rfl⟩

/-- A character stripped by Python `strip` is not a decimal digit. -/
theorem pyIsSpace_not_isDigit (c : Char) (h : pyIsSpace c = true) : c.isDigit = false := by
  unfold pyIsSpace at h
  simp only [Bool.or_eq_true, decide_eq_true_eq] at h
  rcases h with ((((h | h) | h) | h) | h) | h <;> subst h <;> decide

/-- A string made only of whitespace never matches the six-digit pattern. -/
theorem all_space_not_sixDigit (l : List Char) (h : l.all pyIsSpace = true) :
    sixDigitPrefix l = false := by
  unfold sixDigitPrefix
  cases l with
  | nil => simp
  | cons a t =>
    have ha : pyIsSpace a = true := by
      have := List.all_eq_true.mp h a (List.mem_cons_self a t)
      simpa using this
    have hd : a.isDigit = false := pyIsSpace_not_isDigit a ha
    simp [List.take_succ_cons, List.all_cons, hd]

/-- C2 counterexample: a first cell whose text is `" 110101"` (leading space,
then six digits). Its trimmed text starts with six digits, so the claim says
the row is kept; but `re.match` runs on the untrimmed text, so the code
discards the row and the extraction result is empty. -/
theorem c2_counterexample :
    reMatchSixDigits (pyStrip " 110101") = true ∧
    reMatchSixDigits " 110101" = false ∧
    extractTable [[⟨" 110101"⟩, ⟨"某区"⟩]] = Except.ok [] := by
  refine ⟨by decide, by decide, rfl⟩

/-- C2 amended: the six-digit check runs on the UNtrimmed text of the first
remaining cell: a row (with no empty-text cells) is recorded iff its first
cell text itself starts with six digits, and is discarded otherwise — in
particular a first cell with leading whitespace before the digits causes the
row to be discarded. -/
theorem c2_amended_row_filter (c0 c1 : Cell) (cs : List Cell)
    (h : ∀ c ∈ (c0 :: c1 :: cs : List Cell), c.text ≠ "") :
    extractTable [c0 :: c1 :: cs] =
      if reMatchSixDigits c0.text then
        Except.ok [(pyStrip c0.text, pyStrip c1.text)]
      else Except.ok [] := by
  have hf : filterCells (c0 :: c1 :: cs) = c0 :: c1 :: cs :=
    List.filter_eq_self.mpr (fun a ha => by simpa using h a ha)
  unfold extractTable filteredRows
  simp only [List.map_cons, List.map_nil, hf]
  by_cases hm : reMatchSixDigits c0.text <;>
    simp [List.filter, extractGo, hm, dictInsert]

/-- Witness for `c2_amended_row_filter`. -/
theorem c2_amended_witness :
    extractTable [[⟨"110101"⟩, ⟨"甲"⟩]] =
      if reMatchSixDigits "110101" then Except.ok [("110101", "甲")]
      else Except.ok [] :=
  c2_amended_row_filter ⟨"110101"⟩ ⟨"甲"⟩ [] (by decide)

/-- C9: the empty-cell filter compares against the empty string exactly, so a
whitespace-only cell is retained, becomes the first remaining cell, fails the
six-digit match, and makes the whole row be discarded regardless of the later
cells. -/
theorem c9_whitespace_cell_retained (c0 : Cell) (cs : List Cell)
    (hne : c0.text ≠ "") (hsp : c0.text.data.all pyIsSpace = true) :
    filterCells (c0 :: cs) = c0 :: filterCells cs ∧
    reMatchSixDigits c0.text = false ∧
    extractTable [c0 :: cs] = Except.ok [] := by
  have hm : reMatchSixDigits c0.text = false := all_space_not_sixDigit _ hsp
  have hf : filterCells (c0 :: cs) = c0 :: filterCells cs := by
    simp [filterCells, List.filter_cons, hne]
  refine ⟨hf, hm, ?_⟩
  unfold extractTable filteredRows
  simp only [List.map_cons, List.map_nil, hf]
  simp [List.filter, extractGo, hm]

/-- Witness for `c9_whitespace_cell_retained`: the whitespace-only first cell
survives filtering but the row is dropped even though a later cell starts
with six digits. -/
theorem c9_witness :
    filterCells [⟨" "⟩, ⟨"110101"⟩, ⟨"某区"⟩] =
      ⟨" "⟩ :: filterCells [⟨"110101"⟩, ⟨"某区"⟩] ∧
    reMatchSixDigits " " = false ∧
    extractTable [[⟨" "⟩, ⟨"110101"⟩, ⟨"某区"⟩]] = Except.ok [] :=
  c9_whitespace_cell_retained ⟨" "⟩ [⟨"110101"⟩, ⟨"某区"⟩] (by decide) (by decide)

/-- Unfolding equation: empty row list. -/
theorem extractGo_nil (d : Dict) : extractGo d [] = Except.ok d := rfl

/-- Unfolding equation: an empty row raises on `tr[0]`. -/
theorem extractGo_cons_empty (d : Dict) (rest : List Row) :
    extractGo d ([] :: rest) = Except.error "IndexError: list index out of range" := rfl

/-- Unfolding equation: a row failing the six-digit match is skipped. -/
theorem extractGo_cons_skip (d : Dict) (c0 : Cell) (cs : List Cell) (rest : List Row)
    (hm : reMatchSixDigits c0.text = false) :
    extractGo d ((c0 :: cs) :: rest) = extractGo d rest := by
  simp [extractGo, hm]

/-- Unfolding equation: a matching one-cell row raises on `tr[1]`. -/
theorem extractGo_cons_one (d : Dict) (c0 : Cell) (rest : List Row)
    (hm : reMatchSixDigits c0.text = true) :
    extractGo d ([c0] :: rest) = Except.error "IndexError: list index out of range" := by
  simp [extractGo, hm]

/-- Unfolding equation: a matching row with a second cell records the pair. -/
theorem extractGo_cons_rec (d : Dict) (c0 c1 : Cell) (cs : List Cell) (rest : List Row)
    (hm : reMatchSixDigits c0.text = true) :
    extractGo d ((c0 :: c1 :: cs) :: rest) =
      extractGo (dictInsert d (pyStrip c0.text) (pyStrip c1.text)) rest := by
  simp [extractGo, hm]

/-- The row loop returns a dict (for any accumulator) iff every row passes
without raising `IndexError`. -/
theorem extractGo_ok_iff (rows : List Row) : ∀ d : Dict,
    (∃ d', extractGo d rows = Except.ok d') ↔ ∀ tr ∈ rows, rowOk tr = true := by
  induction rows with
  | nil => intro d; simp [extractGo_nil]
  | cons tr rest ih =>
    intro d
    rw [List.forall_mem_cons]
    match tr with
    | [] =>
      rw [extractGo_cons_empty]
      simp [rowOk]
    | c0 :: cs =>
      by_cases hm : reMatchSixDigits c0.text
      · match cs with
        | [] =>
          rw [extractGo_cons_one d c0 rest hm]
          simp [rowOk, hm]
        | c1 :: cs' =>
          rw [extractGo_cons_rec d c0 c1 cs' rest hm, ih]
          simp [rowOk, hm]
      · have hm' : reMatchSixDigits c0.text = false := by simpa using hm
        rw [extractGo_cons_skip d c0 cs rest hm', ih]
        simp [rowOk, hm']

/-- Rows that survive filtering are non-empty. -/
theorem filteredRows_pos (trList : List Row) (tr : Row)
    (h : tr ∈ filteredRows trList) : 0 < tr.length := by
  unfold filteredRows at h
  have := (List.mem_filter.mp h).2
  simpa using this

/-- C8: the extractor raises an index error iff some row survives both
filters, matches the six-digit pattern on its first cell, and yet has fewer
than two cells; absent such a row the extraction always returns a dict. -/
theorem c8_index_error_iff (trList : List Row) :
    (∃ e, extractTable trList = Except.error e) ↔
    (∃ tr ∈ filteredRows trList,
      reMatchSixDigits (tr.headD ⟨""⟩).text = true ∧ tr.length < 2) := by
  have hok := extractGo_ok_iff (filteredRows trList) []
  constructor
  · rintro ⟨e, he⟩
    unfold extractTable at he
    have hnall : ¬ ∀ tr ∈ filteredRows trList, rowOk tr = true := by
      intro hall
      obtain ⟨d', hd'⟩ := hok.mpr hall
      rw [hd'] at he
      exact Except.noConfusion he
    push_neg at hnall
    obtain ⟨tr, htr, hbad⟩ := hnall
    have hpos := filteredRows_pos trList tr htr
    have hbad' : rowOk tr = false := by
      cases hh : rowOk tr
      · rfl
      · exact absurd hh hbad
    match tr, hpos, htr, hbad' with
    | c0 :: cs, _, htr, hbad' =>
      simp only [rowOk, Bool.or_eq_false_iff, Bool.not_eq_false',
        Bool.not_eq_false] at hbad'
      obtain ⟨hm, hcs⟩ := hbad'
      have hcs' : cs = [] := by simpa [List.isEmpty_iff] using hcs
      subst hcs'
      exact ⟨[c0], htr, by simpa using hm, by simp⟩
  · rintro ⟨tr, htr, hm, hlen⟩
    cases he : extractTable trList with
    | error e => exact ⟨e, rfl⟩
    | ok d =>
      exfalso
      unfold extractTable at he
      have hall := hok.mp ⟨d, he⟩
      have hro := hall tr htr
      have hpos := filteredRows_pos trList tr htr
      match tr, hpos, hm, hlen, hro with
      | c0 :: cs, _, hm, hlen, hro =>
        have hcs : cs = [] := by
          cases cs with
          | nil => rfl
          | cons a b =>
            exfalso
            simp only [List.length_cons] at hlen
            omega
        subst hcs
        rw [List.headD_cons] at hm
        simp [rowOk, hm] at hro

/-- Witness for `c8_index_error_iff`: a surviving one-cell row that matches
the six-digit pattern makes the extractor raise. -/
theorem c8_witness :
    ∃ e, extractTable [[(⟨"110101"⟩ : Cell)]] = Except.error e :=
  (c8_index_error_iff [[⟨"110101"⟩]]).mpr
    ⟨[⟨"110101"⟩], by decide, by decide, by decide⟩

/-- `find?` over an append: the left list is searched first. -/
theorem find?_append {α : Type} (l₁ l₂ : List α) (p : α → Bool) :
    (l₁ ++ l₂).find? p =
      match l₁.find? p with
      | some a => some a
      | none => l₂.find? p := by
  induction l₁ with
  | nil => simp
  | cons a l ih => cases h : p a <;> simp [List.find?, h, ih]

/-- Lookup after a Python dict assignment: the assigned key reads back the
new value, other keys are unaffected. -/
theorem dictLookup_dictInsert {α β : Type} [DecidableEq α]
    (d : List (α × β)) (k : α) (v : β) (c : α) :
    dictLookup (dictInsert d k v) c = if k = c then some v else dictLookup d c := by
  induction d with
  | nil => simp [dictInsert, dictLookup]
  | cons p rest ih =>
    obtain ⟨k', v'⟩ := p
    by_cases hk : k' = k
    · subst hk
      by_cases hc : k' = c <;> simp [dictInsert, dictLookup, hc]
    · by_cases hc : k' = c
      · subst hc
        have hk2 : ¬ k = k' := fun h2 => hk h2.symm
        simp [dictInsert, dictLookup, hk, hk2]
      · simp [dictInsert, dictLookup, hk, hc, ih]

/-- Unfolding equation for `lastRowFor` on a cons: later rows take
precedence, the head row only fires when no later row matched. -/
theorem lastRowFor_cons (tr : Row) (rest : List Row) (c : String) :
    lastRowFor (tr :: rest) c =
      match lastRowFor rest c with
      | some tr' => some tr'
      | none =>
        if survives tr && (rowCode tr == c) then some tr else none := by
  unfold lastRowFor
  rw [List.reverse_cons, find?_append]
  cases hf : rest.reverse.find? (fun tr => survives tr && (rowCode tr == c)) <;>
    cases hp : survives tr && (rowCode tr == c) <;> simp [List.find?, hp]

/-- The dict produced by the row loop, characterised per key: a key reads as
the name of the last surviving row recording it, falling back to the
accumulator for codes no row records. -/
theorem extractGo_lookup (rows : List Row) : ∀ (d0 d : Dict),
    extractGo d0 rows = Except.ok d → ∀ c : String,
      dictLookup d c =
        match lastRowFor rows c with
        | some tr => some (rowName tr)
        | none => dictLookup d0 c := by
  induction rows with
  | nil =>
    intro d0 d h c
    rw [extractGo_nil] at h
    injection h with h2
    subst h2
    simp [lastRowFor, List.find?]
  | cons tr rest ih =>
    intro d0 d h c
    match tr with
    | [] =>
      rw [extractGo_cons_empty] at h
      exact Except.noConfusion h
    | c0 :: cs =>
      by_cases hm : reMatchSixDigits c0.text
      · match cs with
        | [] =>
          rw [extractGo_cons_one _ _ _ hm] at h
          exact Except.noConfusion h
        | c1 :: cs' =>
          rw [extractGo_cons_rec _ _ _ _ _ hm] at h
          have hrec := ih _ _ h c
          rw [lastRowFor_cons]
          cases hf : lastRowFor rest c with
          | some tr' => rw [hf] at hrec; simpa using hrec
          | none =>
            rw [hf] at hrec
            rw [dictLookup_dictInsert] at hrec
            have hs : survives (c0 :: c1 :: cs') = true := by
              simp [survives, hm]
            by_cases hkc : pyStrip c0.text = c
            · have hp : (survives (c0 :: c1 :: cs') &&
                  (rowCode (c0 :: c1 :: cs') == c)) = true := by
                simp [hs, rowCode, hkc]
              rw [hrec, if_pos hkc]
              simp [hp, rowName]
            · have hp : (survives (c0 :: c1 :: cs') &&
                  (rowCode (c0 :: c1 :: cs') == c)) = false := by
                simp [hs, rowCode, hkc]
              rw [hrec, if_neg hkc]
              simp [hp]
      · have hm' : reMatchSixDigits c0.text = false := by simpa using hm
        rw [extractGo_cons_skip _ _ _ _ hm'] at h
        have hrec := ih _ _ h c
        rw [lastRowFor_cons]
        have hp : (survives (c0 :: cs) && (rowCode (c0 :: cs) == c)) = false := by
          simp [survives, hm']
        cases hf : lastRowFor rest c with
        | some tr' => rw [hf] at hrec; simpa using hrec
        | none => rw [hf] at hrec; simp [hp]; exact hrec

/-- C5: last write wins. In an extraction that returns a dict, every code
reads as the name of the LAST surviving row of the page (in document order)
that records that code. -/
theorem c5_last_write_wins (trList : List Row) (d : Dict)
    (h : extractTable trList = Except.ok d) (c : String) :
    dictLookup d c = (lastRowFor (filteredRows trList) c).map rowName := by
  unfold extractTable at h
  have hch := extractGo_lookup (filteredRows trList) [] d h c
  cases hf : lastRowFor (filteredRows trList) c with
  | some tr => rw [hf] at hch; simpa using hch
  | none => rw [hf] at hch; simpa [dictLookup] using hch

/-- Witness for `c5_last_write_wins`: on the duplicate-code fixture the
extraction yields the later name, matching the last surviving row. -/
theorem c5_witness :
    dictLookup [("110101", "新名")] "110101" =
      (lastRowFor (filteredRows fixtureC5) "110101").map rowName :=
  c5_last_write_wins fixtureC5 [("110101", "新名")] rfl "110101"

/-- C6: the fetcher contract. On a cache hit the decoded cached bytes are
returned with no events at all (no sleep, no network, no cache write, and an
unchanged environment). On a miss the trace is exactly sleep-then-GET
(followed by the cache write on success): an error status fails the call
without writing the cache, otherwise the raw response bytes are written to
the cache entry and returned decoded. -/
theorem c6_fetcher_contract (env : Env) (cname url : String) :
    (∀ bs, env.cache cname = some bs →
      get_text env cname url = ([], Except.ok (decodeIgnore bs, env))) ∧
    (env.cache cname = none →
      (isErrorStatus (env.http url).1 = true →
        get_text env cname url =
          ([Event.sleep 1, Event.httpGet url], Except.error "HTTPError")) ∧
      (isErrorStatus (env.http url).1 = false →
        get_text env cname url =
          ([Event.sleep 1, Event.httpGet url,
            Event.writeCache cname (env.http url).2],
           Except.ok (decodeIgnore (env.http url).2,
             cacheWrite env cname (env.http url).2)))) := by
  constructor
  · intro bs hbs
    simp [get_text, hbs]
  · intro hnone
    constructor
    · intro hs
      simp [get_text, hnone, hs]
    · intro hs
      simp [get_text, hnone, hs]

/-- Witness for `c6_fetcher_contract`: one cache hit and one cache miss with
a 200 response. -/
theorem c6_witness :
    get_text envAllCached "2023" "u" =
      ([], Except.ok (decodeIgnore [], envAllCached)) ∧
    get_text envMiss "2023" "u" =
      ([Event.sleep 1, Event.httpGet "u", Event.writeCache "2023" [66]],
        Except.ok (decodeIgnore [66], cacheWrite envMiss "2023" [66])) :=
  ⟨(c6_fetcher_contract envAllCached "2023" "u").1 [] rfl,
   ((c6_fetcher_contract envMiss "2023" "u").2 rfl).2 rfl⟩

/-- C10: once a cache entry exists, `get_text` is total whatever the bytes
are: the decode step with `errors="ignore"` always returns a string, so the
call succeeds with the decoded entry and touches nothing. -/
theorem c10_cached_decode_total (env : Env) (cname url : String) (bs : List Nat)
    (h : env.cache cname = some bs) :
    get_text env cname url = ([], Except.ok (decodeIgnore bs, env)) := by
  simp [get_text, h]

/-- Witness for `c10_cached_decode_total`: the cached bytes start with two
bytes that are invalid in UTF-8, yet the fetch succeeds and the decode drops
exactly the undecodable bytes. -/
theorem c10_witness :
    get_text envBadBytes "1999" "u" =
      ([], Except.ok (decodeIgnore [255, 254, 65], envBadBytes)) ∧
    decodeIgnore [255, 254, 65] = "A" :=
  ⟨c10_cached_decode_total envBadBytes "1999" "u" [255, 254, 65] rfl, by decide⟩

/-- The fetcher never serializes the dataset. -/
theorem get_text_no_writeJson (env : Env) (cname url : String) :
    (get_text env cname url).1.filter isWriteJson = [] := by
  cases hc : env.cache cname with
  | some bs => simp [get_text, hc]
  | none =>
    by_cases hs : isErrorStatus (env.http url).1 <;>
      simp [get_text, hc, hs, isWriteJson]

/-- A single year iteration never serializes the dataset. -/
theorem processYear_no_writeJson (env : Env) (ds : Dataset) (year : Nat) (url : String) :
    (processYear env ds year url).1.filter isWriteJson = [] := by
  have hevs := get_text_no_writeJson env (toString year) url
  cases hg : get_text env (toString year) url with
  | mk evs r =>
    rw [hg] at hevs
    cases r with
    | error e => simp [processYear, hg, hevs]
    | ok p =>
      obtain ⟨html, env2⟩ := p
      cases hx : extractTable (env2.parse html) with
      | error e => simp [processYear, hg, hx, hevs]
      | ok d => simp [processYear, hg, hx, hevs]

/-- The year loop never serializes the dataset. -/
theorem mainGo_no_writeJson (l : List (Nat × String)) : ∀ (env : Env) (ds : Dataset),
    (mainGo env ds l).1.filter isWriteJson = [] := by
  induction l with
  | nil => intro env ds; simp [mainGo]
  | cons yu rest ih =>
    intro env ds
    obtain ⟨year, url⟩ := yu
    have hp := processYear_no_writeJson env ds year url
    cases hpy : processYear env ds year url with
    | mk evs r =>
      rw [hpy] at hp
      cases r with
      | error e => simp [mainGo, hpy, hp]
      | ok p =>
        obtain ⟨ds2, env2⟩ := p
        simp [mainGo, hpy, List.filter_append, hp, ih env2 ds2]

/-- C7: the JSON file is written exactly once, after every year fetched and
extracted successfully. On a failed run the trace contains no JSON write at
all; on a successful run it contains exactly one, and it is the very last
event. -/
theorem c7_single_final_write (env : Env) :
    (∀ e, (main env).2 = Except.error e →
      (main env).1.filter isWriteJson = []) ∧
    ((main env).2 = Except.ok () →
      ∃ ds, (main env).1.filter isWriteJson = [Event.writeJson ds] ∧
        (main env).1.getLast? = some (Event.writeJson ds)) := by
  have hng := mainGo_no_writeJson URL_INDEX env []
  cases hm : mainGo env [] URL_INDEX with
  | mk evs r =>
    rw [hm] at hng
    cases r with
    | error e =>
      constructor
      · intro e' _
        simp [main, hm, hng]
      · intro hok
        simp [main, hm] at hok
    | ok p =>
      obtain ⟨ds, env2⟩ := p
      constructor
      · intro e' he'
        simp [main, hm] at he'
      · intro _
        refine ⟨ds, ?_, ?_⟩
        · simp [main, hm, List.filter_append, hng, isWriteJson]
        · simp [main, hm]

/-- Witness for `c7_single_final_write`: with every year cached the run
succeeds and its trace is exactly the one final JSON write. -/
theorem c7_witness :
    ∃ ds, (main envAllCached).1.filter isWriteJson = [Event.writeJson ds] ∧
      (main envAllCached).1.getLast? = some (Event.writeJson ds) :=
  (c7_single_final_write envAllCached).2 rfl

/-- Unfolding the six-digit test into its two parts. -/
theorem sixDigitPrefix_iff (l : List Char) :
    sixDigitPrefix l = true ↔ 6 ≤ l.length ∧ (l.take 6).all Char.isDigit = true := by
  unfold sixDigitPrefix
  simp [Bool.and_eq_true]

/-- A list starting with six digits loses nothing to a left strip. -/
theorem sixDigit_dropWhile (l : List Char) (h : sixDigitPrefix l = true) :
    l.dropWhile pyIsSpace = l := by
  obtain ⟨hlen, hall⟩ := (sixDigitPrefix_iff l).mp h
  cases l with
  | nil => simp at hlen
  | cons c rest =>
    have hmem : c ∈ (c :: rest).take 6 := by simp [List.take_succ_cons]
    have hc : c.isDigit = true := List.all_eq_true.mp hall c hmem
    have hcs : pyIsSpace c = false := by
      cases hsp : pyIsSpace c
      · rfl
      · have hnd := pyIsSpace_not_isDigit c hsp
        rw [hc] at hnd
        exact Bool.noConfusion hnd
    simp [List.dropWhile_cons, hcs]

/-- A list starting with six digits still starts with them after a right
strip: the strip only removes a whitespace suffix, which cannot reach into
the leading digits. -/
theorem rstrip_sixDigit (l : List Char) (h : sixDigitPrefix l = true) :
    sixDigitPrefix ((l.reverse.dropWhile pyIsSpace).reverse) = true := by
  induction l using List.reverseRecOn with
  | nil => simp [sixDigitPrefix] at h
  | append_singleton l' a ih =>
    obtain ⟨hlen, hall⟩ := (sixDigitPrefix_iff _).mp h
    by_cases hsp : pyIsSpace a = true
    · have hl6 : 6 ≤ l'.length := by
        by_contra hl
        push_neg at hl
        have hlen' : 6 ≤ l'.length + 1 := by simpa using hlen
        have h5 : l'.length = 5 := by omega
        have hta : (l' ++ [a]).take 6 = l' ++ [a] := by
          apply List.take_of_length_le
          simp [h5]
        have hamem : a ∈ (l' ++ [a]).take 6 := by rw [hta]; simp
        have had : a.isDigit = true := List.all_eq_true.mp hall a hamem
        have hnd := pyIsSpace_not_isDigit a hsp
        rw [had] at hnd
        exact Bool.noConfusion hnd
      have htake : (l' ++ [a]).take 6 = l'.take 6 :=
        List.take_append_of_le_length hl6
      have h' : sixDigitPrefix l' = true := by
        apply (sixDigitPrefix_iff _).mpr
        refine ⟨hl6, ?_⟩
        rw [← htake]
        exact hall
      rw [List.reverse_append]
      simp only [List.reverse_singleton, List.singleton_append]
      rw [List.dropWhile_cons]
      simp only [hsp, if_true]
      exact ih h'
    · have hsp' : pyIsSpace a = false := by simpa using hsp
      rw [List.reverse_append]
      simp only [List.reverse_singleton, List.singleton_append]
      rw [List.dropWhile_cons]
      simp only [hsp', Bool.false_eq_true, if_false]
      simpa [List.reverse_cons, List.reverse_reverse] using h

/-- A string matched by `re.match(r"\d{6}", ·)` still matches after
`strip()`. This is why every recorded code key matches the pattern. -/
theorem sixDigit_strip (t : String) (h : reMatchSixDigits t = true) :
    reMatchSixDigits (pyStrip t) = true := by
  unfold reMatchSixDigits at h
  have h1 : t.data.dropWhile pyIsSpace = t.data := sixDigit_dropWhile t.data h
  show sixDigitPrefix (pyStripList t.data) = true
  unfold pyStripList
  rw [h1]
  exact rstrip_sixDigit t.data h

/-- Unfolding equation: inserting into the empty dict. -/
theorem dictInsert_nil {α β : Type} [DecidableEq α] (k : α) (v : β) :
    dictInsert ([] : List (α × β)) k v = [(k, v)] := rfl

/-- Unfolding equation: assigning an existing key updates it in place. -/
theorem dictInsert_cons_eq {α β : Type} [DecidableEq α] (k : α) (v v' : β)
    (rest : List (α × β)) :
    dictInsert ((k, v') :: rest) k v = (k, v) :: rest := by
  simp [dictInsert]

/-- Unfolding equation: assignment walks past entries with other keys. -/
theorem dictInsert_cons_ne {α β : Type} [DecidableEq α] (k' : α) (v' : β)
    (k : α) (v : β) (rest : List (α × β)) (h : k' ≠ k) :
    dictInsert ((k', v') :: rest) k v = (k', v') :: dictInsert rest k v := by
  simp [dictInsert, h]

/-- A pointwise property of entries survives a dict assignment whose new
entry satisfies it. -/
theorem dictInsert_forall {α β : Type} [DecidableEq α] (P : α × β → Prop)
    (d : List (α × β)) (k : α) (v : β)
    (hd : ∀ p ∈ d, P p) (hkv : P (k, v)) : ∀ p ∈ dictInsert d k v, P p := by
  induction d with
  | nil =>
    intro p hp
    rw [dictInsert_nil] at hp
    simp at hp
    subst hp
    exact hkv
  | cons q rest ih =>
    obtain ⟨k', v'⟩ := q
    intro p hp
    by_cases hk : k' = k
    · subst hk
      rw [dictInsert_cons_eq] at hp
      rcases List.mem_cons.mp hp with hp | hp
      · subst hp; exact hkv
      · exact hd p (List.mem_cons_of_mem _ hp)
    · rw [dictInsert_cons_ne _ _ _ _ _ hk] at hp
      rcases List.mem_cons.mp hp with hp | hp
      · subst hp; exact hd _ (List.mem_cons_self _ _)
      · exact ih (fun q hq => hd q (List.mem_cons_of_mem _ hq)) p hp

/-- A successful lookup exhibits a dict entry. -/
theorem dictLookup_mem {α β : Type} [DecidableEq α] (d : List (α × β)) (k : α) (v : β)
    (h : dictLookup d k = some v) : (k, v) ∈ d := by
  induction d with
  | nil => simp [dictLookup] at h
  | cons q rest ih =>
    obtain ⟨k', v'⟩ := q
    by_cases hk : k' = k
    · subst hk
      simp [dictLookup] at h
      rw [← h]
      exact List.mem_cons_self _ _
    · simp [dictLookup, hk] at h
      exact List.mem_cons_of_mem _ (ih h)

/-- The row loop only ever adds keys that match the six-digit pattern. -/
theorem extractGo_good (rows : List Row) : ∀ d0 d : Dict, goodDict d0 →
    extractGo d0 rows = Except.ok d → goodDict d := by
  induction rows with
  | nil =>
    intro d0 d h0 h
    rw [extractGo_nil] at h
    injection h with h2
    rw [← h2]
    exact h0
  | cons tr rest ih =>
    intro d0 d h0 h
    match tr with
    | [] => rw [extractGo_cons_empty] at h; exact Except.noConfusion h
    | c0 :: cs =>
      by_cases hm : reMatchSixDigits c0.text
      · match cs with
        | [] => rw [extractGo_cons_one _ _ _ hm] at h; exact Except.noConfusion h
        | c1 :: cs' =>
          rw [extractGo_cons_rec _ _ _ _ _ hm] at h
          apply ih _ _ _ h
          exact dictInsert_forall _ _ _ _ h0 (sixDigit_strip c0.text hm)
      · have hm' : reMatchSixDigits c0.text = false := by simpa using hm
        rw [extractGo_cons_skip _ _ _ _ hm'] at h
        exact ih _ _ h0 h

/-- What a successful `get_text` guarantees: the HTTP view and the parser
are untouched, only the requested cache entry may have changed, and the
returned text is the one `fetchedText` predicts from the starting
environment. -/
theorem get_text_ok (env : Env) (cname url : String) (t : String) (env2 : Env)
    (h : (get_text env cname url).2 = Except.ok (t, env2)) :
    env2.http = env.http ∧ env2.parse = env.parse ∧
    (∀ n, n ≠ cname → env2.cache n = env.cache n) ∧
    fetchedText env cname url = Except.ok t := by
  cases hc : env.cache cname with
  | some bs =>
    simp [get_text, hc] at h
    obtain ⟨ht, henv⟩ := h
    subst henv
    exact ⟨rfl, rfl, fun n _ => rfl, by simp [fetchedText, hc, ht]⟩
  | none =>
    by_cases hs : isErrorStatus (env.http url).1
    · simp [get_text, hc, hs] at h
    · simp [get_text, hc, hs] at h
      obtain ⟨ht, henv⟩ := h
      subst henv
      refine ⟨by simp [cacheWrite], by simp [cacheWrite], ?_, ?_⟩
      · intro n hn
        simp [cacheWrite, hn]
      · simp [fetchedText, hc, hs, ht]

/-- What a successful year iteration guarantees: the fetch succeeded with
some text, the extraction succeeded with some dict, and the dataset gained
the year key twice (first the empty dict, then the extraction result). -/
theorem processYear_ok2 (env : Env) (ds : Dataset) (year : Nat) (url : String)
    (ds2 : Dataset) (env2 : Env)
    (h : (processYear env ds year url).2 = Except.ok (ds2, env2)) :
    ∃ html d, (get_text env (toString year) url).2 = Except.ok (html, env2) ∧
      extractTable (env2.parse html) = Except.ok d ∧
      ds2 = dictInsert (dictInsert ds year []) year d := by
  cases hg : get_text env (toString year) url with
  | mk evs0 r =>
    cases r with
    | error e => simp [processYear, hg] at h
    | ok p =>
      obtain ⟨html, env3⟩ := p
      cases hx : extractTable (env3.parse html) with
      | error e => simp [processYear, hg, hx] at h
      | ok d =>
        simp [processYear, hg, hx] at h
        obtain ⟨hds, henv⟩ := h
        subst henv
        exact ⟨html, d, by simp [hg], hx, hds.symm⟩

/-- Years the loop does not visit keep their dataset entry unchanged. -/
theorem mainGo_preserve (l : List (Nat × String)) : ∀ (env : Env) (ds : Dataset)
    (ds' : Dataset) (env' : Env),
    (mainGo env ds l).2 = Except.ok (ds', env') →
    ∀ y : Nat, (∀ u, (y, u) ∉ l) → dictLookup ds' y = dictLookup ds y := by
  induction l with
  | nil =>
    intro env ds ds' env' h y _
    simp [mainGo] at h
    rw [h.1]
  | cons yu rest ih =>
    obtain ⟨y0, u0⟩ := yu
    intro env ds ds' env' h y hy
    cases hpy : processYear env ds y0 u0 with
    | mk evs0 r =>
      cases r with
      | error e => simp [mainGo, hpy] at h
      | ok p =>
        obtain ⟨ds2, env2⟩ := p
        have h2 : (mainGo env2 ds2 rest).2 = Except.ok (ds', env') := by
          simpa [mainGo, hpy] using h
        have hpy2 : (processYear env ds y0 u0).2 = Except.ok (ds2, env2) := by rw [hpy]
        obtain ⟨html, d0, hgt, hx0, hds2⟩ := processYear_ok2 _ _ _ _ _ _ hpy2
        have hy0 : y0 ≠ y := by
          intro he
          exact hy u0 (by rw [← he]; exact List.mem_cons_self _ _)
        have hrest := ih env2 ds2 ds' env' h2 y
          (fun u hu => hy u (List.mem_cons_of_mem _ hu))
        rw [hrest, hds2, dictLookup_dictInsert, if_neg hy0,
          dictLookup_dictInsert, if_neg hy0]

/-- Every year the loop visits (and every key already present) has an entry
in the final dataset. -/
theorem mainGo_keys (l : List (Nat × String)) : ∀ (env : Env) (ds : Dataset)
    (ds' : Dataset) (env' : Env),
    (mainGo env ds l).2 = Except.ok (ds', env') →
    ∀ y : Nat, ((∃ u, (y, u) ∈ l) ∨ ∃ d, dictLookup ds y = some d) →
    ∃ d, dictLookup ds' y = some d := by
  induction l with
  | nil =>
    intro env ds ds' env' h y hy
    simp [mainGo] at h
    rcases hy with ⟨u, hu⟩ | ⟨d, hd⟩
    · simp at hu
    · exact ⟨d, by rw [← h.1]; exact hd⟩
  | cons yu rest ih =>
    obtain ⟨y0, u0⟩ := yu
    intro env ds ds' env' h y hy
    cases hpy : processYear env ds y0 u0 with
    | mk evs0 r =>
      cases r with
      | error e => simp [mainGo, hpy] at h
      | ok p =>
        obtain ⟨ds2, env2⟩ := p
        have h2 : (mainGo env2 ds2 rest).2 = Except.ok (ds', env') := by
          simpa [mainGo, hpy] using h
        have hpy2 : (processYear env ds y0 u0).2 = Except.ok (ds2, env2) := by rw [hpy]
        obtain ⟨html, d0, hgt, hx0, hds2⟩ := processYear_ok2 _ _ _ _ _ _ hpy2
        apply ih env2 ds2 ds' env' h2 y
        rcases hy with ⟨u, hu⟩ | ⟨d, hd⟩
        · rcases List.mem_cons.mp hu with he | hu'
          · injection he with h1 h2'
            subst h1
            right
            refine ⟨d0, ?_⟩
            rw [hds2, dictLookup_dictInsert]
            simp
          · exact Or.inl ⟨u, hu'⟩
        · right
          rw [hds2, dictLookup_dictInsert]
          by_cases hyy : y0 = y
          · exact ⟨d0, by simp [hyy]⟩
          · refine ⟨d, ?_⟩
            rw [if_neg hyy, dictLookup_dictInsert, if_neg hyy]
            exact hd

/-- The loop preserves the all-keys-match invariant of the dataset. -/
theorem mainGo_good (l : List (Nat × String)) : ∀ (env : Env) (ds : Dataset)
    (ds' : Dataset) (env' : Env),
    (mainGo env ds l).2 = Except.ok (ds', env') →
    (∀ q ∈ ds, goodDict q.2) → ∀ q ∈ ds', goodDict q.2 := by
  induction l with
  | nil =>
    intro env ds ds' env' h hds
    simp [mainGo] at h
    rw [h.1] at hds
    exact hds
  | cons yu rest ih =>
    obtain ⟨y0, u0⟩ := yu
    intro env ds ds' env' h hds
    cases hpy : processYear env ds y0 u0 with
    | mk evs0 r =>
      cases r with
      | error e => simp [mainGo, hpy] at h
      | ok p =>
        obtain ⟨ds2, env2⟩ := p
        have h2 : (mainGo env2 ds2 rest).2 = Except.ok (ds', env') := by
          simpa [mainGo, hpy] using h
        have hpy2 : (processYear env ds y0 u0).2 = Except.ok (ds2, env2) := by rw [hpy]
        obtain ⟨html, d0, hgt, hx0, hds2⟩ := processYear_ok2 _ _ _ _ _ _ hpy2
        have hd0 : goodDict d0 := by
          unfold extractTable at hx0
          exact extractGo_good _ [] d0 (fun p hp => absurd hp (List.not_mem_nil p)) hx0
        have hds2good : ∀ q ∈ ds2, goodDict q.2 := by
          rw [hds2]
          apply dictInsert_forall (fun q => goodDict q.2)
          · apply dictInsert_forall (fun q => goodDict q.2) _ _ _ hds
            exact fun p hp => absurd hp (List.not_mem_nil p)
          · exact hd0
        exact ih env2 ds2 ds' env' h2 hds2good

/-- `fetchedText` only looks at the cache entry of its identifier and the
HTTP view. -/
theorem fetchedText_congr (env env2 : Env) (cname url : String)
    (hc : env2.cache cname = env.cache cname) (hh : env2.http = env.http) :
    fetchedText env2 cname url = fetchedText env cname url := by
  unfold fetchedText
  rw [hc, hh]

/-- Per-year characterisation of the final dataset: when the loop succeeds
and its cache identifiers are pairwise distinct, each visited year holds
exactly the dict that extraction of its fetched page yields (relative to the
starting environment). -/
theorem mainGo_char (l : List (Nat × String)) : ∀ (env : Env) (ds : Dataset)
    (ds' : Dataset) (env' : Env),
    (mainGo env ds l).2 = Except.ok (ds', env') →
    (l.map (fun yu => toString yu.1)).Nodup →
    ∀ y u, (y, u) ∈ l → ∀ t d,
      fetchedText env (toString y) u = Except.ok t →
      extractTable (env.parse t) = Except.ok d →
      dictLookup ds' y = some d := by
  induction l with
  | nil =>
    intro env ds ds' env' h hnd y u hyu
    simp at hyu
  | cons yu rest ih =>
    obtain ⟨y0, u0⟩ := yu
    intro env ds ds' env' h hnd y u hyu t d hft hx
    cases hpy : processYear env ds y0 u0 with
    | mk evs0 r =>
      cases r with
      | error e => simp [mainGo, hpy] at h
      | ok p =>
        obtain ⟨ds2, env2⟩ := p
        have h2 : (mainGo env2 ds2 rest).2 = Except.ok (ds', env') := by
          simpa [mainGo, hpy] using h
        have hpy2 : (processYear env ds y0 u0).2 = Except.ok (ds2, env2) := by rw [hpy]
        obtain ⟨html, d0, hgt, hx0, hds2⟩ := processYear_ok2 _ _ _ _ _ _ hpy2
        obtain ⟨hhttp, hparse, hcache, hft0⟩ := get_text_ok _ _ _ _ _ hgt
        rw [List.map_cons] at hnd
        have hnd' := List.nodup_cons.mp hnd
        have hnd0 : toString y0 ∉ rest.map (fun yu => toString yu.1) := hnd'.1
        have hndr : (rest.map (fun yu => toString yu.1)).Nodup := hnd'.2
        rcases List.mem_cons.mp hyu with he | hyu'
        · injection he with hy hu
          rw [hy, hu] at hft
          rw [hy]
          rw [hft0] at hft
          injection hft with hth
          rw [hparse, hth] at hx0
          rw [hx0] at hx
          injection hx with hd0
          have hpres := mainGo_preserve rest env2 ds2 ds' env' h2 y0
            (fun u1 hu1 => hnd0 (List.mem_map.mpr ⟨(y0, u1), hu1, rfl⟩))
          rw [hpres, hds2, dictLookup_dictInsert]
          simp [hd0]
        · have hys : toString y ≠ toString y0 := by
            intro hcontra
            apply hnd0
            rw [← hcontra]
            exact List.mem_map.mpr ⟨(y, u), hyu', rfl⟩
          have hft2 : fetchedText env2 (toString y) u = Except.ok t := by
            rw [fetchedText_congr env env2 (toString y) u (hcache _ hys) hhttp]
            exact hft
          have hx2 : extractTable (env2.parse t) = Except.ok d := by
            rw [hparse]
            exact hx
          exact ih env2 ds2 ds' env' h2 hndr y u hyu' t d hft2 hx2

/-- C1: when the run over the full `URL_INDEX` succeeds, (a) every
configured year has a key in the final dataset; (b) a year whose page
extraction yields no surviving rows holds the empty sub-mapping, not an
omitted key; (c) every key of every year's inner mapping matches the
six-digit-prefix pattern. -/
theorem c1_dataset_invariants (env : Env) (evs : List Event) (ds : Dataset)
    (env' : Env)
    (hrun : mainGo env [] URL_INDEX = (evs, Except.ok (ds, env'))) :
    (∀ yu ∈ URL_INDEX, ∃ d, dictLookup ds yu.1 = some d) ∧
    (∀ yu ∈ URL_INDEX, ∀ t,
      fetchedText env (toString yu.1) yu.2 = Except.ok t →
      extractTable (env.parse t) = Except.ok [] →
      dictLookup ds yu.1 = some []) ∧
    (∀ y d, dictLookup ds y = some d → ∀ p ∈ d, reMatchSixDigits p.1 = true) := by
  have h2 : (mainGo env [] URL_INDEX).2 = Except.ok (ds, env') := by rw [hrun]
  refine ⟨?_, ?_, ?_⟩
  · intro yu hyu
    obtain ⟨y, u⟩ := yu
    exact mainGo_keys URL_INDEX env [] ds env' h2 y (Or.inl ⟨u, hyu⟩)
  · intro yu hyu t hft hx
    obtain ⟨y, u⟩ := yu
    exact mainGo_char URL_INDEX env [] ds env' h2 (by decide) y u hyu t [] hft hx
  · intro y d hld
    have hgood := mainGo_good URL_INDEX env [] ds env' h2
      (fun q hq => absurd hq (List.not_mem_nil q))
    exact hgood (y, d) (dictLookup_mem ds y d hld)

/-- Witness for `c1_dataset_invariants`: with every page cached as empty
bytes, every year extracts no rows and the final dataset maps 2023 to the
empty sub-mapping. -/
theorem c1_witness :
    dictLookup dsAllCached 2023 = some [] :=
  (c1_dataset_invariants envAllCached [] dsAllCached envAllCached rfl).2.1
    (2023, "https://www.mca.gov.cn/mzsj/xzqh/2023/202301xzqh.html") (by decide)
    "" rfl rfl

end Crawl
